import Mathlib

/-!
Shallow embedding of the `lifespan` Go package (github.com/jharshman/lifespan).

Go buffered channels are modelled as a bounded FIFO queue (`Chan`): a send
succeeds when the buffer has free space, a non-blocking send (a `select` with a
`default` branch) drops the message when the buffer is full, a blocking send on
a full buffer blocks, and any send on a closed channel — or closing a closed
channel — is a Go runtime panic (`GoPanic`).  Wall-clock time is abstracted by
`GoTime`; the 3-second ack wait in `LifeSpan.Close` is abstracted by a boolean
saying whether the ack channel becomes ready within the window.  `context.Value`
for the two well-known keys is modelled by the `Context` structure.
-/

namespace Lifespan

/-- A Go runtime panic relevant to this package. -/
inductive GoPanic where
  | sendOnClosed
  | closeOfClosed
  | registerAfterClose
deriving DecidableEq, Repr

/-- A Go buffered channel of payload `T`: capacity, queued contents (oldest
first) and whether it has been closed. -/
structure Chan (T : Type) where
  cap : Nat
  buf : List T
  closed : Bool
deriving DecidableEq, Repr

/-- `make(chan T, n)`. -/
def Chan.make (T : Type) (n : Nat) : Chan T :=
  { cap := n, buf := [], closed := false }

/-- Outcome of a blocking channel send `ch <- m`: the send either completes
(buffer has space), blocks the sender (buffer full), or panics (channel
closed). -/
inductive SendResult (T : Type) where
  | sent (c : Chan T)
  | blocked
  | panicked
deriving DecidableEq, Repr

/-- Blocking send `ch <- m`. -/
def Chan.send (c : Chan T) (m : T) : SendResult T :=
  if c.closed then .panicked
  else if c.buf.length < c.cap then .sent { c with buf := c.buf ++ [m] }
  else .blocked

/-- Non-blocking send, i.e. `select { case ch <- m: default: }`.  Returns the
channel state and whether the message was enqueued; sending on a closed channel
panics even inside a `select`. -/
def Chan.sendNB (c : Chan T) (m : T) : Except GoPanic (Chan T × Bool) :=
  if c.closed then .error .sendOnClosed
  else if c.buf.length < c.cap then .ok ({ c with buf := c.buf ++ [m] }, true)
  else .ok (c, false)

/-- `close(ch)`: closing an already-closed channel panics. -/
def Chan.closeCh (c : Chan T) : Except GoPanic (Chan T) :=
  if c.closed then .error .closeOfClosed
  else .ok { c with closed := true }

/-- A receive from `ch` completes immediately when a value is buffered or the
channel is closed (a closed channel yields the zero value at once). -/
def Chan.recvReady (c : Chan T) : Bool :=
  c.closed || decide (0 < c.buf.length)

/-- A Go `time.Time`: an instant plus whether it carries the UTC location. -/
structure GoTime where
  unix : Int
  isUTC : Bool
deriving DecidableEq, Repr

/-- `t.UTC()`. -/
def GoTime.toUTC (t : GoTime) : GoTime :=
  { t with isUTC := true }

/-- An underlying Go `error` value (abstracted to its message). -/
structure GoError where
  msg : String
deriving DecidableEq, Repr

/-- The well-known context keys (lifespan.go). -/
def jobIDKey : String := "job_id"

def groupIDKey : String := "group_id"

/-- The two well-known context values carried by a `context.Context`; `none`
models an absent key (or a value failing the string type assertion). -/
structure Context where
  jobIDVal : Option String
  groupIDVal : Option String
deriving DecidableEq, Repr

/-- `JobIDFromContext` (lifespan.go): the `job_id` value or `""`. -/
def JobIDFromContext (ctx : Context) : String :=
  ctx.jobIDVal.getD ""

/-- `GroupIDFromContext` (lifespan.go): the `group_id` value or `""`. -/
def GroupIDFromContext (ctx : Context) : String :=
  ctx.groupIDVal.getD ""

/-- The `Error` record published on error buses (message_bus.go). -/
structure Error where
  JobID : String
  GroupID : String
  Error : GoError
  Timestamp : GoTime
deriving DecidableEq, Repr

/-- `defaultBufferSize` (logger.go / lifespan.go). -/
def defaultBufferSize : Int := 1024

/-- `ErrorBus` (message_bus.go): a struct holding one channel of `Error`. -/
structure ErrorBus where
  Bus : Chan Error
deriving DecidableEq, Repr

/-- `ErrorBus.Publish`: `select { case e.Bus <- msg: default: }` — enqueue when
there is room, silently drop otherwise, never block. -/
def ErrorBus.Publish (e : ErrorBus) (msg : Error) : Except GoPanic ErrorBus :=
  match e.Bus.sendNB msg with
  | .error p => .error p
  | .ok (c, _) => .ok { Bus := c }

/-- `ErrorBus.Close`: `close(e.Bus)`, unconditionally. -/
def ErrorBus.Close (e : ErrorBus) : Except GoPanic ErrorBus :=
  match e.Bus.closeCh with
  | .error p => .error p
  | .ok c => .ok { Bus := c }

/-- A Go `map[string]any`, modelled extensionally; assignment overwrites. -/
def Metadata : Type := String → Option String

def mdEmpty : Metadata := fun _ => none

def mdInsert (m : Metadata) (k v : String) : Metadata :=
  fun q => if q = k then some v else m q

/-- The `Log` record published on log buses (message_bus.go / logger.go).
`Timestamp` is `none` while `r.Time` is the zero time. -/
structure Log where
  JobID : String := ""
  GroupID : String := ""
  Msg : String := ""
  Level : String := ""
  Timestamp : Option GoTime := none
  Meta : Metadata := mdEmpty

/-- `LogBus` (message_bus.go): a struct holding one channel of `Log`. -/
structure LogBus where
  Bus : Chan Log

/-- `LogBus.Publish`: `select { case l.Bus <- msg: default: }`. -/
def LogBus.Publish (l : LogBus) (msg : Log) : Except GoPanic LogBus :=
  match l.Bus.sendNB msg with
  | .error p => .error p
  | .ok (c, _) => .ok { Bus := c }

/-- `LogBus.Close`: `close(l.Bus)`, unconditionally. -/
def LogBus.Close (l : LogBus) : Except GoPanic LogBus :=
  match l.Bus.closeCh with
  | .error p => .error p
  | .ok c => .ok { Bus := c }

/-- `CentralMessageBus` (message_bus.go): the sink channel, the idempotence
flag, and the `sync.WaitGroup` counter of live forwarding goroutines (the
mutex itself is represented by the atomicity of the operations below). -/
structure CentralMessageBus (T : Type) where
  closed : Bool
  active : Nat
  bus : Chan T
deriving DecidableEq, Repr

/-- `NewCentralMessageBus`: `make(chan T, bufferSize)` — the requested size is
used as given, with no clamping. -/
def NewCentralMessageBus (T : Type) (bufferSize : Int) : CentralMessageBus T :=
  { closed := false, active := 0, bus := Chan.make T bufferSize.toNat }

/-- `CentralMessageBus.Register` (under `cb.mu`): panic if the bus is closed,
otherwise `wg.Add(1)` and spawn a forwarding goroutine for the source channel
(the forwarding itself is the `forward` step of `CBStep` below). -/
def CentralMessageBus.Register (cb : CentralMessageBus T) (_src : Chan T) :
    Except GoPanic (CentralMessageBus T) :=
  if cb.closed then .error .registerAfterClose
  else .ok { cb with active := cb.active + 1 }

/-- `CentralMessageBus.Publish`: `select { case cb.bus <- msg: default: }` —
non-blocking, drop on full. -/
def CentralMessageBus.Publish (cb : CentralMessageBus T) (msg : T) :
    Except GoPanic (CentralMessageBus T) :=
  match cb.bus.sendNB msg with
  | .error p => .error p
  | .ok (c, _) => .ok { cb with bus := c }

/-- The first, lock-protected phase of `CentralMessageBus.Close`: check the
`closed` flag (early return when already set — the second component reports
whether the close proceeds) and set it. -/
def closeFlagPhase (cb : CentralMessageBus T) : CentralMessageBus T × Bool :=
  if cb.closed then (cb, false) else ({ cb with closed := true }, true)

/-- Execution state of a `CentralMessageBus` together with a flag recording
whether some forwarding goroutine ever attempted a send on the closed sink
(which would be a Go panic). -/
structure CBExec (T : Type) where
  cb : CentralMessageBus T
  panicked : Bool
deriving DecidableEq, Repr

/-- The concurrent steps of the central bus and its forwarders, message_bus.go:
* `register`: `Register` under the lock — refused once `closed` is set;
* `forward`: a live forwarding goroutine performs `cb.bus <- msg` (a blocking
  send; sending on the closed sink would panic, which `panicked` records);
* `finish`: a forwarding goroutine sees its source closed and does `wg.Done()`;
* `closeFlag`: the lock-protected phase of `Close` on a not-yet-closed bus;
* `closeSink`: `Close` reaches `close(cb.bus)` — only after `wg.Wait()`
  returned, i.e. with no live forwarder, and only in the single `Close` call
  that passed the flag check (so the sink is not yet closed). -/
inductive CBStep (T : Type) : CBExec T → CBExec T → Prop where
  | register (s : CBExec T) (hs : s.cb.closed = false) :
      CBStep T s { s with cb := { s.cb with active := s.cb.active + 1 } }
  | forward (s : CBExec T) (m : T) (hs : 0 < s.cb.active) :
      CBStep T s
        (if s.cb.bus.closed then { s with panicked := true }
         else { s with cb := { s.cb with bus := { s.cb.bus with buf := s.cb.bus.buf ++ [m] } } })
  | finish (s : CBExec T) (hs : 0 < s.cb.active) :
      CBStep T s { s with cb := { s.cb with active := s.cb.active - 1 } }
  | closeFlag (s : CBExec T) (hs : s.cb.closed = false) :
      CBStep T s { s with cb := { s.cb with closed := true } }
  | closeSink (s : CBExec T) (hflag : s.cb.closed = true)
      (hwait : s.cb.active = 0) (hsink : s.cb.bus.closed = false) :
      CBStep T s { s with cb := { s.cb with bus := { s.cb.bus with closed := true } } }

/-- The initial execution state delivered by `NewCentralMessageBus`. -/
def CBInit (T : Type) (bufferSize : Int) : CBExec T :=
  { cb := NewCentralMessageBus T bufferSize, panicked := false }

/-- Reachability along `CBStep`. -/
def CBReach (T : Type) (bufferSize : Int) (s : CBExec T) : Prop :=
  Relation.ReflTransGen (CBStep T) (CBInit T bufferSize) s

/-- How `LifeSpan.Close` (lifespan.go) ends: the signal slot was already
occupied (`slog.Warn("unable to send signal")`, no wait), the ack arrived
within the 3-second window, or the wait timed out
(`slog.Warn("timeout waiting for acknowledgement")`). -/
inductive CloseOutcome where
  | warnUnableToSend
  | acked
  | warnAckTimeout
deriving DecidableEq, Repr

/-- `LifeSpan.Close` (lifespan.go): non-blocking send on `span.Sig`; on
success, wait on `span.Ack` against a 3-second timer.  `ackReady` abstracts
"`span.Ack` is closed or yields a value within 3 seconds".  The function
returns the signal channel's new state and the outcome; it performs no
cancellation and no termination of the task. -/
def LifeSpan.Close (sig : Chan Unit) (ackReady : Bool) :
    Except GoPanic (Chan Unit × CloseOutcome) :=
  match sig.sendNB () with
  | .error p => .error p
  | .ok (sig2, true) => .ok (sig2, if ackReady then .acked else .warnAckTimeout)
  | .ok (sig2, false) => .ok (sig2, .warnUnableToSend)

/-- `LifeSpan.Error` (lifespan.go): build the record — underlying error,
`time.Now().UTC()`, job and group ids from the context when present (the Go
zero value `""` otherwise) — then perform the blocking send
`span.ErrBus <- e`. -/
def LifeSpan.errRecord (ctx : Context) (err : GoError) (now : GoTime) : Error :=
  { JobID := ctx.jobIDVal.getD ""
    GroupID := ctx.groupIDVal.getD ""
    Error := err
    Timestamp := now.toUTC }

def LifeSpan.Error (ctx : Context) (err : GoError) (now : GoTime)
    (errBus : Chan Error) : SendResult Error :=
  errBus.send (LifeSpan.errRecord ctx err now)

/-- A task lifecycle handle as built by `Run` (lifespan.go): signal and ack
channels of capacity 1, the per-task error channel of capacity
`defaultBufferSize`, and the job/group ids baked into the span's logger. -/
structure Span where
  Sig : Chan Unit
  Ack : Chan Unit
  ErrBus : Chan Error
  loggerJobID : String
  loggerGroupID : String
deriving DecidableEq, Repr

/-- A configuration error returned by a start operation (group.go). -/
inductive ConfigError where
  | nilLogHandler
  | nilErrBus
deriving DecidableEq, Repr

/-- `Run` (lifespan.go): mint a job id when the context lacks one (`fresh`
stands for `uuid.New().String()`), create the per-task error channel, register
it with the central bus, build the handle, spawn the job, and return the handle
with a `nil` error — `Run` takes no error-sink or log-handler argument and has
no failure path. -/
def Run (fresh : String) (ctx : Context) : Span × Option ConfigError :=
  let ctx2 := if ctx.jobIDVal.isSome then ctx else { ctx with jobIDVal := some fresh }
  ({ Sig := Chan.make Unit 1
     Ack := Chan.make Unit 1
     ErrBus := Chan.make Error defaultBufferSize.toNat
     loggerJobID := JobIDFromContext ctx2
     loggerGroupID := GroupIDFromContext ctx2 }, none)

/-- Logger options (logger.go); `slog.Leveler` abstracted to its level. -/
structure Options where
  Level : Int
deriving DecidableEq, Repr

/-- A resolved `slog.Attr`: key and (resolved) value, the value abstracted to
the string observed by both `Value.String()` and `Value.Any()`. -/
structure Attr where
  key : String
  val : String
deriving DecidableEq, Repr

/-- `Logger` (logger.go): options, the underlying `LogBus`, and the attributes
accumulated by `WithAttrs`. -/
structure Logger where
  opts : Options
  bus : LogBus
  attrs : List Attr

/-- `NewLogger` (logger.go): clamp `bsize` up to `defaultBufferSize`, then
build the bus.  `NewLogBus` is not under src/; every in-repo bus constructor
allocates a channel of the size it is passed, which is inlined here (the size
is already clamped, so a clamping `NewLogBus` would produce the same bus). -/
def NewLogger (bsize : Int) (opts : Options) : Logger :=
  let b := if bsize < defaultBufferSize then defaultBufferSize else bsize
  { opts := opts, bus := { Bus := Chan.make Log b.toNat }, attrs := [] }

/-- A `slog.Record` as consumed by `Logger.Handle`: message, level string,
time (`none` for the zero time) and the attributes attached at the log call
site (iterated by `r.Attrs`). -/
structure Record where
  Message : String
  Level : String
  Time : Option GoTime
  attrs : List Attr
deriving DecidableEq, Repr

/-- One step of the loop over the logger's stored attributes in
`Logger.Handle` (logger.go): `job_id` and `group_id` become first-class
fields, everything else goes into the metadata map. -/
def stepLoggerAttr (log : Log) (a : Attr) : Log :=
  if a.key = jobIDKey then { log with JobID := a.val }
  else if a.key = groupIDKey then { log with GroupID := a.val }
  else { log with Meta := mdInsert log.Meta a.key a.val }

/-- One step of the `r.Attrs` loop in `Logger.Handle` (logger.go): every
record attribute is added to the metadata map, whatever its key. -/
def stepRecordAttr (log : Log) (a : Attr) : Log :=
  { log with Meta := mdInsert log.Meta a.key a.val }

/-- `Logger.Handle` (logger.go): build the `Log` — UTC timestamp when the
record's time is non-zero, job/group ids from the context when present, the
logger's stored attributes folded by `stepLoggerAttr`, then the record's own
attributes folded by `stepRecordAttr` — and hand it to `l.bus.Publish` (the
non-blocking publish of `LogBus.Publish`); `Handle` itself returns `nil`.
This function returns the `Log` that is published. -/
def Logger.Handle (l : Logger) (ctx : Context) (r : Record) : Log :=
  let log0 : Log :=
    { Msg := r.Message
      Level := r.Level
      Meta := mdEmpty
      Timestamp := r.Time.map GoTime.toUTC
      JobID := ctx.jobIDVal.getD ""
      GroupID := ctx.groupIDVal.getD "" }
  let log1 := l.attrs.foldl stepLoggerAttr log0
  r.attrs.foldl stepRecordAttr log1

/-- `Logger.WithAttrs` (logger.go): a new `Logger` with the same options and
the same bus; when the receiver has stored attributes they are copied into a
fresh backing array, and the new attributes are appended to the copy — the
receiver's own slice is never written. -/
def Logger.WithAttrs (l : Logger) (attrs : List Attr) : Logger :=
  let copied := if 0 < l.attrs.length then l.attrs else []
  { opts := l.opts, bus := l.bus, attrs := copied ++ attrs }

/-- `Group` (group.go): the runnable jobs (opaque) and the spans collected by
`Start`. -/
structure Group where
  jobs : List Unit
  spans : List Span

/-- `Group.Start` (group.go): reject a nil log handler or a nil error bus with
a configuration error before anything is spawned; otherwise run every job and
append its span.  The result pairs the group as the caller observes it after
the call with the returned error. -/
def Group.Start (g : Group) (logHandler : Option Logger) (errBus : Option ErrorBus) :
    Group × Option ConfigError :=
  match logHandler with
  | none => (g, some .nilLogHandler)
  | some _ =>
    match errBus with
    | none => (g, some .nilErrBus)
    | some _ =>
      ({ g with spans := g.spans ++ g.jobs.map (fun _ => (Run "" { jobIDVal := none, groupIDVal := none }).1) },
       none)

/-!  Theorems settling the claims. -/

/-- C1: `LifeSpan.Close` first attempts a non-blocking send on the signal
channel; when the single buffered slot is occupied it warns and returns with
the channel untouched (a no-op for the task); when the send succeeds it waits
for the ack, returning normally if the ack channel is ready within 3 seconds
and warning-and-returning on timeout, with no force-termination in either
case. -/
theorem close_handshake (sig : Chan Unit) (ackReady : Bool)
    (h : sig.closed = false) :
    (sig.cap ≤ sig.buf.length →
      LifeSpan.Close sig ackReady = .ok (sig, .warnUnableToSend)) ∧
    (sig.buf.length < sig.cap →
      LifeSpan.Close sig ackReady =
        .ok ({ sig with buf := sig.buf ++ [()] },
             if ackReady then .acked else .warnAckTimeout)) := by
  constructor
  · intro hfull
    have hnlt : ¬ sig.buf.length < sig.cap := by omega
    simp [LifeSpan.Close, Chan.sendNB, h, hnlt]
  · intro hlt
    simp [LifeSpan.Close, Chan.sendNB, h, hlt]

/-- Witness for C1 at a fresh capacity-1 signal channel with the ack ready. -/
theorem close_handshake_witness :
    LifeSpan.Close (Chan.make Unit 1) true =
      .ok ({ Chan.make Unit 1 with buf := [()] }, .acked) := by
  simpa using (close_handshake (Chan.make Unit 1) true rfl).2 (by decide)

/-- C3: `Publish` on a bounded bus never blocks — with free capacity the
message is enqueued, on a full queue the message is silently dropped and the
call returns normally, raising nothing to the publisher (shown for both
`ErrorBus.Publish` and `CentralMessageBus.Publish` on a live bus). -/
theorem publish_never_blocks (e : ErrorBus) (cb : CentralMessageBus Error)
    (msg : Error) (he : e.Bus.closed = false) (hc : cb.bus.closed = false) :
    (e.Bus.buf.length < e.Bus.cap →
      e.Publish msg = .ok { Bus := { e.Bus with buf := e.Bus.buf ++ [msg] } }) ∧
    (e.Bus.cap ≤ e.Bus.buf.length → e.Publish msg = .ok e) ∧
    (cb.bus.buf.length < cb.bus.cap →
      cb.Publish msg = .ok { cb with bus := { cb.bus with buf := cb.bus.buf ++ [msg] } }) ∧
    (cb.bus.cap ≤ cb.bus.buf.length → cb.Publish msg = .ok cb) := by
  refine ⟨fun hlt => ?_, fun hge => ?_, fun hlt => ?_, fun hge => ?_⟩
  · simp [ErrorBus.Publish, Chan.sendNB, he, hlt]
  · have hnlt : ¬ e.Bus.buf.length < e.Bus.cap := by omega
    simp [ErrorBus.Publish, Chan.sendNB, he, hnlt]
  · simp [CentralMessageBus.Publish, Chan.sendNB, hc, hlt]
  · have hnlt : ¬ cb.bus.buf.length < cb.bus.cap := by omega
    simp [CentralMessageBus.Publish, Chan.sendNB, hc, hnlt]

def smallError : Error :=
  { JobID := "", GroupID := "", Error := { msg := "old" }, Timestamp := { unix := 0, isUTC := true } }

/-- Witness for C3: an empty capacity-1 error bus enqueues, and a full
capacity-1 central bus drops while returning normally. -/
theorem publish_never_blocks_witness :
    ErrorBus.Publish { Bus := Chan.make Error 1 } smallError =
      .ok { Bus := { Chan.make Error 1 with buf := [smallError] } } ∧
    CentralMessageBus.Publish { closed := false, active := 0, bus := { cap := 1, buf := [smallError], closed := false } } smallError =
      .ok { closed := false, active := 0, bus := { cap := 1, buf := [smallError], closed := false } } := by
  have h := publish_never_blocks { Bus := Chan.make Error 1 }
    { closed := false, active := 0, bus := { cap := 1, buf := [smallError], closed := false } }
    smallError rfl rfl
  exact ⟨by simpa using h.1 (by decide), by simpa using h.2.2.2 (by decide)⟩

def c4ctx : Context := { jobIDVal := some "job-1", groupIDVal := none }

def c4err : GoError := { msg := "boom" }

def c4now : GoTime := { unix := 5, isUTC := false }

/-- A full capacity-1 error sink. -/
def c4fullSink : Chan Error := { cap := 1, buf := [smallError], closed := false }

/-- Counterexample to C4: on a full sink, `LifeSpan.Error` — a plain blocking
channel send — blocks, while the sink's own non-blocking publish on the very
same state returns normally; so the call does block longer than the sink's
non-blocking publish. -/
theorem error_blocks_on_full_sink :
    LifeSpan.Error c4ctx c4err c4now c4fullSink = .blocked ∧
    ErrorBus.Publish { Bus := c4fullSink } (LifeSpan.errRecord c4ctx c4err c4now) =
      .ok { Bus := c4fullSink } := by
  exact ⟨rfl, rfl⟩

/-- C4 (amended): `LifeSpan.Error` publishes a record whose underlying error
is the given error, whose job and group ids are read from the context
(defaulting to empty when absent) and whose timestamp is the current UTC
time — but via a blocking channel send: with free capacity the record is
enqueued and the call returns; on a full sink the call blocks until space
frees (the record is not dropped), instead of using the sink's non-blocking
publish. -/
theorem error_blocking_send (ctx : Context) (err : GoError) (now : GoTime)
    (c : Chan Error) (h : c.closed = false) :
    (c.buf.length < c.cap →
      LifeSpan.Error ctx err now c =
        .sent { c with buf := c.buf ++
          [{ JobID := ctx.jobIDVal.getD ""
             GroupID := ctx.groupIDVal.getD ""
             Error := err
             Timestamp := now.toUTC }] }) ∧
    (c.cap ≤ c.buf.length → LifeSpan.Error ctx err now c = .blocked) ∧
    (LifeSpan.errRecord ctx err now).Timestamp.isUTC = true := by
  refine ⟨fun hlt => ?_, fun hge => ?_, rfl⟩
  · simp [LifeSpan.Error, LifeSpan.errRecord, Chan.send, h, hlt]
  · have hnlt : ¬ c.buf.length < c.cap := by omega
    simp [LifeSpan.Error, Chan.send, h, hnlt]

/-- Witness for C4 (amended) at an empty capacity-1 sink. -/
theorem error_blocking_send_witness :
    LifeSpan.Error c4ctx c4err c4now (Chan.make Error 1) =
      .sent { Chan.make Error 1 with
        buf := [{ JobID := "job-1", GroupID := "", Error := c4err,
                  Timestamp := { unix := 5, isUTC := true } }] } := by
  simpa using (error_blocking_send c4ctx c4err c4now (Chan.make Error 1) rfl).1 (by decide)

/-- C5: registering a source on the central bus after close has begun (the
`closed` flag is set) panics — a loud, fatal contract violation, not a silent
success or no-op. -/
theorem register_after_close_panics (cb : CentralMessageBus Error)
    (src : Chan Error) (h : cb.closed = true) :
    cb.Register src = .error .registerAfterClose := by
  simp [CentralMessageBus.Register, h]

/-- Witness for C5 at a concrete closed central bus. -/
theorem register_after_close_panics_witness :
    CentralMessageBus.Register { closed := true, active := 0, bus := Chan.make Error 4 }
      (Chan.make Error 1) = .error .registerAfterClose :=
  register_after_close_panics { closed := true, active := 0, bus := Chan.make Error 4 }
    (Chan.make Error 1) rfl

/-- Counterexample to C6: a second `Close` on an `ErrorBus` is not a harmless
no-op — the first close succeeds and the second one is a Go panic (close of a
closed channel). -/
theorem errorbus_double_close_panics :
    ErrorBus.Close { Bus := { cap := 10, buf := [smallError], closed := false } } =
      .ok { Bus := { cap := 10, buf := [smallError], closed := true } } ∧
    ErrorBus.Close { Bus := { cap := 10, buf := [smallError], closed := true } } =
      .error .closeOfClosed := by
  exact ⟨rfl, rfl⟩

/-- C6 (amended): a second `close()` is a harmless no-op only on the central
aggregating bus — its flag check returns with the bus, including all published
content, unchanged; on the simple error and log buses `Close` closes the
underlying channel unconditionally, so a second call panics (they must be
closed at most once). -/
theorem second_close_behavior (cb : CentralMessageBus Error) (e : ErrorBus)
    (l : LogBus) (hcb : cb.closed = true) (he : e.Bus.closed = true)
    (hl : l.Bus.closed = true) :
    closeFlagPhase cb = (cb, false) ∧
    ErrorBus.Close e = .error .closeOfClosed ∧
    LogBus.Close l = .error .closeOfClosed := by
  refine ⟨?_, ?_, ?_⟩
  · simp [closeFlagPhase, hcb]
  · simp [ErrorBus.Close, Chan.closeCh, he]
  · simp [LogBus.Close, Chan.closeCh, hl]

/-- Witness for C6 (amended) at concrete already-closed buses. -/
theorem second_close_behavior_witness :
    closeFlagPhase { closed := true, active := 0, bus := Chan.make Error 4 } =
      ({ closed := true, active := 0, bus := Chan.make Error 4 }, false) ∧
    ErrorBus.Close { Bus := { cap := 1, buf := [], closed := true } } =
      .error .closeOfClosed := by
  have h := second_close_behavior { closed := true, active := 0, bus := Chan.make Error 4 }
    { Bus := { cap := 1, buf := [], closed := true } }
    { Bus := { cap := 1, buf := [], closed := true } } rfl rfl rfl
  exact ⟨h.1, h.2.1⟩

/-- C7: `Group.Start` returns a configuration error immediately — with the
group's span list untouched, so nothing is spawned — when the log handler or
the error bus is nil, and otherwise returns no error having stored one handle
per job; the runner `Run` takes no nil-able collaborator and always returns
its handle with no error. -/
theorem start_config_errors (g : Group) (lh : Logger) (eb : ErrorBus)
    (fresh : String) (ctx : Context) :
    Group.Start g none (some eb) = (g, some .nilLogHandler) ∧
    Group.Start g none none = (g, some .nilLogHandler) ∧
    Group.Start g (some lh) none = (g, some .nilErrBus) ∧
    (Group.Start g (some lh) (some eb)).2 = none ∧
    (Group.Start g (some lh) (some eb)).1.spans.length =
      g.spans.length + g.jobs.length ∧
    (Run fresh ctx).2 = none := by
  refine ⟨rfl, rfl, rfl, rfl, ?_, rfl⟩
  simp [Group.Start]

/-- Counterexample to C9: `NewCentralMessageBus` does not clamp — requesting
size 0 yields a bus of capacity 0, below the configured minimum. -/
theorem central_bus_zero_capacity :
    (NewCentralMessageBus Error 0).bus.cap = 0 ∧
    ¬ defaultBufferSize.toNat ≤ (NewCentralMessageBus Error 0).bus.cap := by
  exact ⟨rfl, by decide⟩

/-- C9 (amended): `NewLogger` clamps its bus capacity to at least
`defaultBufferSize` (a smaller or zero request yields exactly the minimum),
but `NewCentralMessageBus` uses the requested size as given, so a request
below the minimum — zero included — yields exactly that capacity. -/
theorem constructor_capacities (bsize : Int) (opts : Options) :
    defaultBufferSize.toNat ≤ (NewLogger bsize opts).bus.Bus.cap ∧
    (bsize < defaultBufferSize →
      (NewLogger bsize opts).bus.Bus.cap = defaultBufferSize.toNat) ∧
    (NewCentralMessageBus Error bsize).bus.cap = bsize.toNat := by
  refine ⟨?_, fun hlt => ?_, rfl⟩
  · simp only [NewLogger, Chan.make]
    split <;> omega
  · simp only [NewLogger, Chan.make]
    split
    · rfl
    · omega

/-- Witness for C9 (amended) at requested size 0. -/
theorem constructor_capacities_witness :
    defaultBufferSize.toNat ≤ (NewLogger 0 { Level := 0 }).bus.Bus.cap ∧
    (NewLogger 0 { Level := 0 }).bus.Bus.cap = defaultBufferSize.toNat := by
  have h := constructor_capacities 0 { Level := 0 }
  exact ⟨h.1, h.2.1 (by decide)⟩

/-- C10: `WithAttrs` returns a logger whose attribute list is the receiver's
attributes followed by the given ones and which shares the receiver's bus and
options; the receiver itself is passed by value and its slice is copied into a
fresh backing array before the append, so its own attributes, options and bus
are untouched. -/
theorem withattrs_frame (l : Logger) (attrs : List Attr) :
    (l.WithAttrs attrs).attrs = l.attrs ++ attrs ∧
    (l.WithAttrs attrs).bus = l.bus ∧
    (l.WithAttrs attrs).opts = l.opts := by
  refine ⟨?_, rfl, rfl⟩
  unfold Logger.WithAttrs
  cases l.attrs with
  | nil => simp
  | cons a as => simp

/-!  Helper lemmas about the two attribute folds of `Logger.Handle`. -/

/-- The value of the last attribute with key `k` in a list, if any. -/
def lastKeyVal (k : String) (attrs : List Attr) : Option String :=
  attrs.foldl (fun o a => if a.key = k then some a.val else o) none

theorem foldl_lastKey (k : String) (attrs : List Attr) (acc : Option String) :
    attrs.foldl (fun o a => if a.key = k then some a.val else o) acc =
      match lastKeyVal k attrs with
      | some v => some v
      | none => acc := by
  induction attrs generalizing acc with
  | nil => simp [lastKeyVal]
  | cons a as ih =>
    simp only [List.foldl_cons]
    rw [ih]
    have hcons : lastKeyVal k (a :: as) =
        match lastKeyVal k as with
        | some v => some v
        | none => if a.key = k then some a.val else none := by
      show as.foldl _ _ = _
      rw [ih]
    rw [hcons]
    cases h : lastKeyVal k as <;> by_cases hk : a.key = k <;> simp [h, hk]

theorem jobKey_ne_groupKey : jobIDKey ≠ groupIDKey := by decide

theorem stepLoggerAttr_JobID (log : Log) (a : Attr) :
    (stepLoggerAttr log a).JobID = if a.key = jobIDKey then a.val else log.JobID := by
  unfold stepLoggerAttr
  by_cases h1 : a.key = jobIDKey
  · simp [h1]
  · by_cases h2 : a.key = groupIDKey <;>
      simp [h1, h2, Ne.symm jobKey_ne_groupKey]

theorem stepLoggerAttr_GroupID (log : Log) (a : Attr) :
    (stepLoggerAttr log a).GroupID = if a.key = groupIDKey then a.val else log.GroupID := by
  unfold stepLoggerAttr
  by_cases h1 : a.key = jobIDKey
  · have h2 : a.key ≠ groupIDKey := by rw [h1]; exact jobKey_ne_groupKey
    simp [h1, h2, jobKey_ne_groupKey]
  · by_cases h2 : a.key = groupIDKey <;>
      simp [h1, h2, Ne.symm jobKey_ne_groupKey]

theorem foldLogger_JobID (attrs : List Attr) (log : Log) :
    (attrs.foldl stepLoggerAttr log).JobID = (lastKeyVal jobIDKey attrs).getD log.JobID := by
  induction attrs generalizing log with
  | nil => simp [lastKeyVal]
  | cons a as ih =>
    simp only [List.foldl_cons]
    rw [ih]
    have hcons : lastKeyVal jobIDKey (a :: as) =
        match lastKeyVal jobIDKey as with
        | some v => some v
        | none => if a.key = jobIDKey then some a.val else none := by
      show as.foldl _ _ = _
      rw [foldl_lastKey]
    rw [hcons]
    cases h : lastKeyVal jobIDKey as <;>
      by_cases hk : a.key = jobIDKey <;>
        simp [h, hk, stepLoggerAttr_JobID]

theorem foldLogger_GroupID (attrs : List Attr) (log : Log) :
    (attrs.foldl stepLoggerAttr log).GroupID = (lastKeyVal groupIDKey attrs).getD log.GroupID := by
  induction attrs generalizing log with
  | nil => simp [lastKeyVal]
  | cons a as ih =>
    simp only [List.foldl_cons]
    rw [ih]
    have hcons : lastKeyVal groupIDKey (a :: as) =
        match lastKeyVal groupIDKey as with
        | some v => some v
        | none => if a.key = groupIDKey then some a.val else none := by
      show as.foldl _ _ = _
      rw [foldl_lastKey]
    rw [hcons]
    cases h : lastKeyVal groupIDKey as <;>
      by_cases hk : a.key = groupIDKey <;>
        simp [h, hk, stepLoggerAttr_GroupID]

theorem foldRecord_JobID (attrs : List Attr) (log : Log) :
    (attrs.foldl stepRecordAttr log).JobID = log.JobID := by
  induction attrs generalizing log with
  | nil => rfl
  | cons a as ih => simp only [List.foldl_cons]; rw [ih]; rfl

theorem foldRecord_GroupID (attrs : List Attr) (log : Log) :
    (attrs.foldl stepRecordAttr log).GroupID = log.GroupID := by
  induction attrs generalizing log with
  | nil => rfl
  | cons a as ih => simp only [List.foldl_cons]; rw [ih]; rfl

theorem mdInsert_isSome (m : Metadata) (k v q : String)
    (h : (m q).isSome = true) : ((mdInsert m k v) q).isSome = true := by
  unfold mdInsert
  by_cases hq : q = k <;> simp [hq, h]

theorem stepLoggerAttr_Meta_mono (log : Log) (a : Attr) (q : String)
    (h : (log.Meta q).isSome = true) :
    ((stepLoggerAttr log a).Meta q).isSome = true := by
  unfold stepLoggerAttr
  by_cases h1 : a.key = jobIDKey
  · simpa [h1] using h
  · by_cases h2 : a.key = groupIDKey
    · simpa [h1, h2] using h
    · simpa [h1, h2] using mdInsert_isSome log.Meta a.key a.val q h

theorem foldLogger_Meta_mono (attrs : List Attr) (log : Log) (q : String)
    (h : (log.Meta q).isSome = true) :
    (((attrs.foldl stepLoggerAttr log).Meta) q).isSome = true := by
  induction attrs generalizing log with
  | nil => exact h
  | cons a as ih =>
    simp only [List.foldl_cons]
    exact ih _ (stepLoggerAttr_Meta_mono log a q h)

theorem foldRecord_Meta_mono (attrs : List Attr) (log : Log) (q : String)
    (h : (log.Meta q).isSome = true) :
    (((attrs.foldl stepRecordAttr log).Meta) q).isSome = true := by
  induction attrs generalizing log with
  | nil => exact h
  | cons a as ih =>
    simp only [List.foldl_cons]
    refine ih _ ?_
    exact mdInsert_isSome log.Meta a.key a.val q h

theorem foldRecord_mem_isSome (attrs : List Attr) (log : Log) (a : Attr)
    (ha : a ∈ attrs) :
    (((attrs.foldl stepRecordAttr log).Meta) a.key).isSome = true := by
  induction attrs generalizing log with
  | nil => cases ha
  | cons b bs ih =>
    simp only [List.foldl_cons]
    rcases List.mem_cons.mp ha with h | h
    · subst h
      refine foldRecord_Meta_mono bs _ a.key ?_
      simp [stepRecordAttr, mdInsert]
    · exact ih _ h

theorem foldLogger_mem_isSome (attrs : List Attr) (log : Log) (a : Attr)
    (ha : a ∈ attrs) (h1 : a.key ≠ jobIDKey) (h2 : a.key ≠ groupIDKey) :
    (((attrs.foldl stepLoggerAttr log).Meta) a.key).isSome = true := by
  induction attrs generalizing log with
  | nil => cases ha
  | cons b bs ih =>
    simp only [List.foldl_cons]
    rcases List.mem_cons.mp ha with h | h
    · subst h
      refine foldLogger_Meta_mono bs _ a.key ?_
      simp [stepLoggerAttr, h1, h2, mdInsert]
    · exact ih _ h

theorem foldLogger_Meta_jobIDKey (attrs : List Attr) (log : Log) :
    ((attrs.foldl stepLoggerAttr log).Meta) jobIDKey = log.Meta jobIDKey := by
  induction attrs generalizing log with
  | nil => rfl
  | cons a as ih =>
    simp only [List.foldl_cons]
    rw [ih]
    unfold stepLoggerAttr
    by_cases h1 : a.key = jobIDKey
    · simp [h1]
    · by_cases h2 : a.key = groupIDKey
      · simp [h1, h2, Ne.symm jobKey_ne_groupKey]
      · simp [h1, h2, mdInsert, Ne.symm h1]

theorem foldLogger_Meta_groupIDKey (attrs : List Attr) (log : Log) :
    ((attrs.foldl stepLoggerAttr log).Meta) groupIDKey = log.Meta groupIDKey := by
  induction attrs generalizing log with
  | nil => rfl
  | cons a as ih =>
    simp only [List.foldl_cons]
    rw [ih]
    unfold stepLoggerAttr
    by_cases h1 : a.key = jobIDKey
    · simp [h1, jobKey_ne_groupKey]
    · by_cases h2 : a.key = groupIDKey
      · simp [h1, h2, Ne.symm jobKey_ne_groupKey]
      · simp [h1, h2, mdInsert, Ne.symm h2]

theorem foldRecord_Meta_not_mem (attrs : List Attr) (log : Log) (k : String)
    (h : ∀ a ∈ attrs, a.key ≠ k) :
    (((attrs.foldl stepRecordAttr log).Meta) k) = log.Meta k := by
  induction attrs generalizing log with
  | nil => rfl
  | cons a as ih =>
    simp only [List.foldl_cons]
    rw [ih _ (fun b hb => h b (List.mem_cons_of_mem a hb))]
    have hk : a.key ≠ k := h a (List.mem_cons_self a as)
    simp [stepRecordAttr, mdInsert, Ne.symm hk]

def c8logger : Logger :=
  { opts := { Level := 0 }
    bus := { Bus := Chan.make Log 1024 }
    attrs := [{ key := "job_id", val := "J" }, { key := "k0", val := "v0" }] }

def c8ctx : Context := { jobIDVal := none, groupIDVal := some "G" }

def c8record : Record :=
  { Message := "m", Level := "INFO", Time := none
    attrs := [{ key := "job_id", val := "X" }, { key := "k1", val := "v1" }] }

def c8plain : Logger :=
  { opts := { Level := 0 }, bus := { Bus := Chan.make Log 1024 }, attrs := [] }

/-- Counterexample to C8: a record-attached attribute with key `job_id` is
folded into the metadata mapping and does not reach the first-class `JobID`
field — handled by a logger with no stored attributes and a context without a
job id, the handled record keeps `JobID = ""` while `Meta "job_id" = "X"`. -/
theorem record_jobid_attr_folded :
    (c8plain.Handle c8ctx c8record).JobID = "" ∧
    (c8plain.Handle c8ctx c8record).Meta jobIDKey = some "X" := by
  exact ⟨rfl, rfl⟩

/-- C8 (amended): attributes stored on the handler (via `WithAttrs`) with keys
`job_id`/`group_id` are surfaced as the record's first-class fields — the last
occurrence wins, overriding the context value — and are never folded into
metadata; every other stored attribute, and every attribute attached to the
record itself (whatever its key, `job_id`/`group_id` included), is folded into
the generic metadata mapping. -/
theorem handle_attr_routing (l : Logger) (ctx : Context) (r : Record) :
    (∀ a ∈ r.attrs, ((l.Handle ctx r).Meta a.key).isSome = true) ∧
    ((∀ a ∈ r.attrs, a.key ≠ jobIDKey) →
      (l.Handle ctx r).Meta jobIDKey = none) ∧
    ((∀ a ∈ r.attrs, a.key ≠ groupIDKey) →
      (l.Handle ctx r).Meta groupIDKey = none) ∧
    (l.Handle ctx r).JobID =
      (lastKeyVal jobIDKey l.attrs).getD (ctx.jobIDVal.getD "") ∧
    (l.Handle ctx r).GroupID =
      (lastKeyVal groupIDKey l.attrs).getD (ctx.groupIDVal.getD "") ∧
    (∀ a ∈ l.attrs, a.key ≠ jobIDKey → a.key ≠ groupIDKey →
      ((l.Handle ctx r).Meta a.key).isSome = true) := by
  unfold Logger.Handle
  refine ⟨?_, ?_, ?_, ?_, ?_, ?_⟩
  · intro a ha
    exact foldRecord_mem_isSome r.attrs _ a ha
  · intro hnone
    rw [foldRecord_Meta_not_mem r.attrs _ jobIDKey hnone,
        foldLogger_Meta_jobIDKey]
    rfl
  · intro hnone
    rw [foldRecord_Meta_not_mem r.attrs _ groupIDKey hnone,
        foldLogger_Meta_groupIDKey]
    rfl
  · rw [foldRecord_JobID, foldLogger_JobID]
  · rw [foldRecord_GroupID, foldLogger_GroupID]
  · intro a ha h1 h2
    exact foldRecord_Meta_mono r.attrs _ a.key
      (foldLogger_mem_isSome l.attrs _ a ha h1 h2)

/-- Witness for C8 (amended) on a logger holding a stored `job_id` attribute
and a free-form one, handling a record carrying its own `job_id`-keyed and
free-form attributes. -/
theorem handle_attr_routing_witness :
    ((c8logger.Handle c8ctx c8record).Meta "k1").isSome = true ∧
    ((c8logger.Handle c8ctx c8record).Meta "k0").isSome = true ∧
    (c8logger.Handle c8ctx c8record).JobID = "J" ∧
    (c8logger.Handle c8ctx c8record).GroupID = "G" := by
  have h := handle_attr_routing c8logger c8ctx c8record
  refine ⟨h.1 { key := "k1", val := "v1" } (by decide), ?_, ?_, ?_⟩
  · exact h.2.2.2.2.2 { key := "k0", val := "v0" } (by decide) (by decide) (by decide)
  · rw [h.2.2.2.1]; rfl
  · rw [h.2.2.2.2.1]; rfl

/-- The safety invariant of the central bus execution: nothing has panicked,
and the sink can only be closed with the flag set and no live forwarder. -/
def CBInv (s : CBExec T) : Prop :=
  s.panicked = false ∧
  (s.cb.bus.closed = true → s.cb.closed = true ∧ s.cb.active = 0)

theorem cbstep_preserves (s t : CBExec T) (h : CBStep T s t)
    (hs : CBInv s) : CBInv t := by
  obtain ⟨hp, hi⟩ := hs
  cases h with
  | register hflag =>
    refine ⟨hp, fun hb => ?_⟩
    exact absurd (hi hb).1 (by simp [hflag])
  | forward m hact =>
    by_cases hb : s.cb.bus.closed = true
    · exact absurd hact (by simp [(hi hb).2])
    · rw [if_neg hb]
      have hb2 : s.cb.bus.closed = false := by
        revert hb
        cases s.cb.bus.closed <;> simp
      refine ⟨hp, fun hclosed => ?_⟩
      exact absurd hclosed (by simp [hb2])
  | finish hact =>
    refine ⟨hp, fun hb => ?_⟩
    have h2 := hi hb
    exact ⟨h2.1, by omega⟩
  | closeFlag hflag =>
    exact ⟨hp, fun hb => ⟨rfl, (hi hb).2⟩⟩
  | closeSink hflag hwait hsink =>
    exact ⟨hp, fun _ => ⟨hflag, hwait⟩⟩

theorem cbreach_inv (bufferSize : Int) (s : CBExec T)
    (h : CBReach T bufferSize s) : CBInv s := by
  induction h with
  | refl =>
    refine ⟨rfl, fun hb => ?_⟩
    simp [CBInit, NewCentralMessageBus, Chan.make] at hb
  | tail hmany hstep ih => exact cbstep_preserves _ _ hstep ih

/-- C2: along every execution of the central bus — registrations, forwarding,
forwarder completion, the flag phase of `Close`, and the final sink close that
is only enabled once the flag is set and every forwarder has finished — no
forwarder ever attempts a write to a closed sink, and whenever the sink is
closed the `closed` flag is set with zero forwarders outstanding; moreover a
second `Close` call finds the flag set and returns as a no-op leaving the bus
untouched. -/
theorem central_close_ordering (bufferSize : Int) (s : CBExec Error)
    (t : CentralMessageBus Error) (hs : CBReach Error bufferSize s)
    (ht : t.closed = true) :
    s.panicked = false ∧
    (s.cb.bus.closed = true → s.cb.closed = true ∧ s.cb.active = 0) ∧
    closeFlagPhase t = (t, false) := by
  have h := cbreach_inv bufferSize s hs
  exact ⟨h.1, h.2, by simp [closeFlagPhase, ht]⟩

def cbS0 : CBExec Error := CBInit Error 4

def cbS1 : CBExec Error :=
  { cb := { closed := false, active := 1, bus := { cap := 4, buf := [], closed := false } }
    panicked := false }

def cbS2 : CBExec Error :=
  { cb := { closed := false, active := 1, bus := { cap := 4, buf := [smallError], closed := false } }
    panicked := false }

def cbS3 : CBExec Error :=
  { cb := { closed := false, active := 0, bus := { cap := 4, buf := [smallError], closed := false } }
    panicked := false }

def cbS4 : CBExec Error :=
  { cb := { closed := true, active := 0, bus := { cap := 4, buf := [smallError], closed := false } }
    panicked := false }

def cbS5 : CBExec Error :=
  { cb := { closed := true, active := 0, bus := { cap := 4, buf := [smallError], closed := true } }
    panicked := false }

/-- Witness for C2 on a concrete execution: register a source, forward one
message, let the forwarder finish, set the close flag, close the sink. -/
theorem central_close_ordering_witness :
    cbS5.panicked = false ∧ closeFlagPhase cbS4.cb = (cbS4.cb, false) := by
  have h0 : CBStep Error cbS0 cbS1 := CBStep.register cbS0 rfl
  have h1 : CBStep Error cbS1 cbS2 := CBStep.forward cbS1 smallError (by decide)
  have h2 : CBStep Error cbS2 cbS3 := CBStep.finish cbS2 (by decide)
  have h3 : CBStep Error cbS3 cbS4 := CBStep.closeFlag cbS3 rfl
  have h4 : CBStep Error cbS4 cbS5 := CBStep.closeSink cbS4 rfl rfl rfl
  have hreach : CBReach Error 4 cbS5 :=
    Relation.ReflTransGen.tail
      (Relation.ReflTransGen.tail
        (Relation.ReflTransGen.tail
          (Relation.ReflTransGen.tail
            (Relation.ReflTransGen.tail Relation.ReflTransGen.refl h0) h1) h2) h3) h4
  have h := central_close_ordering 4 cbS5 cbS4.cb hreach rfl
  exact ⟨h.1, h.2.2⟩
